import Mathlib

/-!
# Honeycomb gateway: start-up wiring and endpoint schemes

A shallow embedding of `src/backend/endpoint.go` and `src/cmd/honeycomb/main.go`
of the honeycomb TLS-terminating reverse proxy, with the properties its
specification states about them.

Go strings are Lean `String`s, Go `error` results are `Except` values, a call of
`logger.Fatalln` (which ends the process) is an explicit `fatal` outcome, and
calls into the Go standard library or third-party packages (`ioutil.ReadFile`,
`x509.CertPool`, `tls.LoadX509KeyPair`, ...) and into the repository's `name` package,
whose source is not at hand, are parameters of the definitions that use them.
-/

namespace Honeycomb

/-! ## `src/backend/endpoint.go` -/

/-- Endpoint holds information about a back-end HTTP(s) server. -/
structure Endpoint where
  Description : String
  Address : String
  IsTLS : Bool
deriving DecidableEq, Repr

/-- The method `Endpoint.GetScheme`: the URL scheme used to connect to the endpoint. -/
def Endpoint.GetScheme (endpoint : Endpoint) (isWebSocket : Bool) : String :=
  let scheme := if isWebSocket then "ws" else "http"
  let scheme := if endpoint.IsTLS then scheme ++ "s" else scheme
  scheme

/-! ## `src/cmd/honeycomb/main.go`: the redirect server -/

/-- The fields of `http.Request` that `redirectHandler` reads
(`req.Host`, `req.URL.Path`, `req.URL.RawQuery`). -/
structure Request where
  Host : String
  Path : String
  RawQuery : String
deriving DecidableEq, Repr

/-- The constant `http.StatusTemporaryRedirect`. -/
def StatusTemporaryRedirect : Nat := 307

/-- The answer of a handler that ends in `http.Redirect(w, req, url, code)`:
the redirect target and the status code handed to the library. -/
structure Redirect where
  url : String
  code : Nat
deriving DecidableEq, Repr

/-- Go's `len` of a string: its length in bytes. -/
def len (s : String) : Nat := s.utf8ByteSize

/-- The function `redirectHandler`, served for every request of the insecure port. -/
def redirectHandler (req : Request) : Redirect :=
  let target := "https://" ++ req.Host ++ req.Path
  let target := if len req.RawQuery > 0 then target ++ ("?" ++ req.RawQuery) else target
  { url := target, code := StatusTemporaryRedirect }

/-! ## `src/cmd/honeycomb/main.go`: TLS configuration -/

/-- The constant `tls.VersionTLS10`. -/
def VersionTLS10 : Nat := 0x0301
/-- The constant `tls.VersionTLS11`. -/
def VersionTLS11 : Nat := 0x0302
/-- The constant `tls.VersionTLS12`. -/
def VersionTLS12 : Nat := 0x0303
/-- The constant `tls.CurveP256`. -/
def CurveP256 : Nat := 23
/-- The constant `tls.CurveP384`. -/
def CurveP384 : Nat := 24
/-- The constant `tls.CurveP521`. -/
def CurveP521 : Nat := 25

/-- The fields of `tls.Config` that `main.go` sets, over an abstract certificate
pool `Pool`, certificate type `Cert` and certificate callback `Getter`.
The defaults are Go's zero values. -/
structure TLSConfig (Pool Cert Getter : Type) where
  GetCertificate : Option Getter := none
  Certificates : List Cert := []
  RootCAs : Option Pool := none
  NextProtos : List String := []
  MinVersion : Nat := 0
  PreferServerCipherSuites : Bool := false
  CurvePreferences : List Nat := []
  InsecureSkipVerify : Bool := false

/-- The function `prepareTLSConfig`: the four assignments it makes to the configuration. -/
def prepareTLSConfig {Pool Cert Getter : Type} (config : TLSConfig Pool Cert Getter) :
    TLSConfig Pool Cert Getter :=
  { config with
    NextProtos := ["h2"]
    MinVersion := VersionTLS10
    PreferServerCipherSuites := true
    CurvePreferences := [CurveP256, CurveP384, CurveP521] }

/-- The TLS configuration `main` serves with: the literal `tlsConfig` of `main`
(`GetCertificate`, `Certificates` and `RootCAs` set) after `prepareTLSConfig(tlsConfig)`. -/
def serverTLSConfig {Pool Cert Getter : Type} (provider : Getter) (defaultCertificate : Cert)
    (rootCACertPool : Pool) : TLSConfig Pool Cert Getter :=
  prepareTLSConfig
    { GetCertificate := some provider
      Certificates := [defaultCertificate]
      RootCAs := some rootCACertPool }

/-! ## `src/cmd/honeycomb/main.go`: the transports and the proxy handler -/

/-- The fields of `http.Transport` that `main` sets. `TLSClientConfig` is a pointer,
`none` when nil. -/
structure Transport (ProxyFn DialFn Pool Cert Getter : Type) where
  Proxy : ProxyFn
  DialContext : DialFn
  MaxIdleConns : Int
  IdleConnTimeout : Int
  TLSHandshakeTimeout : Int
  ExpectContinueTimeout : Int
  TLSClientConfig : Option (TLSConfig Pool Cert Getter)

/-- The type `proxy.HTTPProxy`, as `main` fills it. -/
structure HTTPProxy (ProxyFn DialFn Pool Cert Getter : Type) where
  Transport : Transport ProxyFn DialFn Pool Cert Getter

/-- The type `proxy.BasicWebSocketDialer`, as `main` fills it. -/
structure BasicWebSocketDialer (Pool Cert Getter : Type) where
  TLSConfig : Option (TLSConfig Pool Cert Getter)

/-- The type `proxy.WebSocketProxy`, as `main` fills it. -/
structure WebSocketProxy (Pool Cert Getter : Type) where
  Dialer : BasicWebSocketDialer Pool Cert Getter

/-- The type `proxy.Handler`, as `main` fills it (the `Logger` field, a reference to the
process logger, is left out). -/
structure ProxyHandler (Loc ProxyFn DialFn Pool Cert Getter : Type) where
  Locator : Loc
  SecureHTTPProxy : HTTPProxy ProxyFn DialFn Pool Cert Getter
  InsecureHTTPProxy : HTTPProxy ProxyFn DialFn Pool Cert Getter
  SecureWebSocketProxy : WebSocketProxy Pool Cert Getter
  InsecureWebSocketProxy : WebSocketProxy Pool Cert Getter

section Wiring
variable {Loc ProxyFn DialFn Pool Cert Getter : Type}

/-- The value `secureTransport` of `main`, from `http.DefaultTransport` and the root-CA pool. -/
def secureTransport (DefaultTransport : Transport ProxyFn DialFn Pool Cert Getter)
    (rootCACertPool : Pool) : Transport ProxyFn DialFn Pool Cert Getter :=
  { Proxy := DefaultTransport.Proxy
    DialContext := DefaultTransport.DialContext
    MaxIdleConns := DefaultTransport.MaxIdleConns
    IdleConnTimeout := DefaultTransport.IdleConnTimeout
    TLSHandshakeTimeout := DefaultTransport.TLSHandshakeTimeout
    ExpectContinueTimeout := DefaultTransport.ExpectContinueTimeout
    TLSClientConfig := some { RootCAs := some rootCACertPool } }

/-- The value `insecureTransport` of `main`. -/
def insecureTransport (DefaultTransport : Transport ProxyFn DialFn Pool Cert Getter)
    (rootCACertPool : Pool) : Transport ProxyFn DialFn Pool Cert Getter :=
  { Proxy := DefaultTransport.Proxy
    DialContext := DefaultTransport.DialContext
    MaxIdleConns := DefaultTransport.MaxIdleConns
    IdleConnTimeout := DefaultTransport.IdleConnTimeout
    TLSHandshakeTimeout := DefaultTransport.TLSHandshakeTimeout
    ExpectContinueTimeout := DefaultTransport.ExpectContinueTimeout
    TLSClientConfig := some { RootCAs := some rootCACertPool, InsecureSkipVerify := true } }

/-- The `proxy.Handler` literal of `main`. -/
def proxyHandler (DefaultTransport : Transport ProxyFn DialFn Pool Cert Getter)
    (cachingLocator : Loc) (rootCACertPool : Pool) :
    ProxyHandler Loc ProxyFn DialFn Pool Cert Getter :=
  { Locator := cachingLocator
    SecureHTTPProxy := { Transport := secureTransport DefaultTransport rootCACertPool }
    InsecureHTTPProxy := { Transport := insecureTransport DefaultTransport rootCACertPool }
    SecureWebSocketProxy :=
      { Dialer :=
          { TLSConfig := (secureTransport DefaultTransport rootCACertPool).TLSClientConfig } }
    InsecureWebSocketProxy :=
      { Dialer :=
          { TLSConfig := (secureTransport DefaultTransport rootCACertPool).TLSClientConfig } } }

end Wiring

/-- Whether a TLS client configuration pointer skips upstream certificate verification
(a nil pointer is Go's default configuration, which verifies). -/
def skipsVerification {Pool Cert Getter : Type} (c : Option (TLSConfig Pool Cert Getter)) : Bool :=
  match c with
  | none => false
  | some cfg => cfg.InsecureSkipVerify

/-! ## `src/cmd/honeycomb/main.go`: configuration -/

/-- The fields `config.Certificates.ACME` of `cmd.Config` read by `main.go`. -/
structure ACMEConfig where
  Email : String
  Domains : List String
  CachePath : String
deriving DecidableEq, Repr

/-- The fields `config.Certificates` of `cmd.Config` read by `main.go`. -/
structure CertificatesConfig where
  BasePath : String
  ServerCertificate : String
  ServerKey : String
  IssuerCertificate : String
  IssuerKey : String
  CABundles : List String
  ACME : ACMEConfig
deriving DecidableEq, Repr

/-- The fields of `cmd.Config` read by `main.go`. -/
structure Config where
  Port : String
  InsecurePort : String
  ProxyProtocol : Bool
  Certificates : CertificatesConfig
deriving DecidableEq, Repr

/-- A Go byte slice. -/
abbrev Bytes := List Nat

/-! ## `src/cmd/honeycomb/main.go`: the certificate providers -/

/-- What `acmeCertificateProvider` calls outside `main.go`: `name.TryParse`,
`name.NewMatcher` and `Matcher.Match` of the repository's `name` package, and the
standard library's `errors.New`, over abstract types of server names, matchers and errors. -/
structure AcmeDeps (ServerName Matcher Err : Type) where
  TryParse : String → Except Err ServerName
  NewMatcher : String → Except Err Matcher
  Match : Matcher → ServerName → Int
  errorsNew : String → Err

/-- The values given to the `Prompt` field of `autocert.Manager`. -/
inductive PromptFn where
  | AcceptTOS
deriving DecidableEq, Repr

/-- The fields of `autocert.Manager` that `acmeCertificateProvider` sets. `HostPolicy`
returns a Go `error`: `none` is nil (host accepted). `Cache` is `none` when left nil and
`some path` for `autocert.DirCache(path)`. -/
structure Manager (Err : Type) where
  Prompt : PromptFn
  HostPolicy : String → Option Err
  Cache : Option String

/-- The type `cert.FileProvider`, as `fileCertificateProvider` fills it. -/
structure FileProvider where
  BasePath : String
deriving DecidableEq, Repr

/-- The type `generator.IssuerSignedGenerator`. -/
structure IssuerSignedGenerator (X509 RSAKey : Type) where
  IssuerCertificate : X509
  IssuerKey : RSAKey
  ServerKey : RSAKey

/-- The type `cert.AdhocProvider`, as `adhocCertificateProvider` fills it. -/
structure AdhocProvider (X509 RSAKey : Type) where
  Generator : IssuerSignedGenerator X509 RSAKey

/-- A value of the interface `cert.Provider`: nil, or one of the three providers
`main.go` builds. -/
inductive Provider (Err X509 RSAKey : Type) where
  | nil
  | file (p : FileProvider)
  | acme (m : Manager Err)
  | adhoc (p : AdhocProvider X509 RSAKey)

/-- A value of the interface `crypto.PrivateKey`: an RSA key or a key of another kind. -/
inductive PrivateKey (RSAKey OtherKey : Type) where
  | rsa (k : RSAKey)
  | other (k : OtherKey)

/-- The type `tls.Certificate`: the DER chain, the private key and the parsed leaf. -/
structure TLSCertificate (X509 RSAKey OtherKey : Type) where
  Certificate : List Bytes
  PrivateKey : PrivateKey RSAKey OtherKey
  Leaf : Option X509

/-- The standard-library calls of `adhocCertificateProvider`: `path.Join`,
`tls.LoadX509KeyPair` and `x509.ParseCertificate`. -/
structure CryptoLib (Err X509 RSAKey OtherKey : Type) where
  pathJoin : String → String → String
  LoadX509KeyPair : String → String → Except Err (TLSCertificate X509 RSAKey OtherKey)
  ParseCertificate : Bytes → Except Err X509

/-- The result of a Go function returning `(value, error)` that can also panic:
a value with a nil error, an error, or a run-time panic. -/
inductive Outcome (Err α : Type) where
  | ok (a : α)
  | err (e : Err)
  | panicked

section Providers
variable {ServerName Matcher Err X509 RSAKey OtherKey : Type}

/-- The function `fileCertificateProvider`. -/
def fileCertificateProvider (Err X509 RSAKey : Type) (config : Config) :
    Provider Err X509 RSAKey :=
  .file { BasePath := config.Certificates.BasePath }

/-- The loop of `acmeCertificateProvider` over `config.Certificates.ACME.Domains`:
each domain is compiled and appended to `matchers`; the first error is returned. -/
def acmeMatchers (deps : AcmeDeps ServerName Matcher Err) :
    List String → List Matcher → Except Err (List Matcher)
  | [], matchers => .ok matchers
  | d :: rest, matchers =>
    match deps.NewMatcher d with
    | .error err => .error err
    | .ok m => acmeMatchers deps rest (matchers ++ [m])

/-- The loop of the host policy over `matchers`: `true` when it reaches `return nil`,
that is when some matcher gives the name a score above 0. -/
def hostPolicyLoop (deps : AcmeDeps ServerName Matcher Err) (sn : ServerName) :
    List Matcher → Bool
  | [] => false
  | m :: rest => if deps.Match m sn > 0 then true else hostPolicyLoop deps sn rest

/-- The closure given to `HostPolicy` in `acmeCertificateProvider`, over the captured
`matchers`. -/
def hostPolicy (deps : AcmeDeps ServerName Matcher Err) (matchers : List Matcher)
    (host : String) : Option Err :=
  match deps.TryParse host with
  | .error err => some err
  | .ok sn =>
    if hostPolicyLoop deps sn matchers then none
    else some (deps.errorsNew "host not allowed")

/-- The function `acmeCertificateProvider`, returning Go's triple
`(cert.Provider, bool, error)`. -/
def acmeCertificateProvider (X509 RSAKey : Type) (deps : AcmeDeps ServerName Matcher Err)
    (config : Config) :
    Provider Err X509 RSAKey × Bool × Option Err :=
  if config.Certificates.ACME.Email = "" then (.nil, false, none)
  else
    match acmeMatchers deps config.Certificates.ACME.Domains [] with
    | .error err => (.nil, false, some err)
    | .ok matchers =>
      let m : Manager Err :=
        { Prompt := .AcceptTOS
          HostPolicy := hostPolicy deps matchers
          Cache := none }
      let m := if config.Certificates.ACME.CachePath ≠ "" then
        { m with Cache := some config.Certificates.ACME.CachePath } else m
      (.acme m, true, none)

/-- The function `adhocCertificateProvider`. Indexing `issuer.Certificate[0]` on an empty
chain and the type assertion on a non-RSA issuer key are run-time panics. -/
def adhocCertificateProvider (lib : CryptoLib Err X509 RSAKey OtherKey) (config : Config)
    (serverKey : RSAKey) : Outcome Err (Provider Err X509 RSAKey) :=
  match lib.LoadX509KeyPair
      (lib.pathJoin config.Certificates.BasePath config.Certificates.IssuerCertificate)
      (lib.pathJoin config.Certificates.BasePath config.Certificates.IssuerKey) with
  | .error err => .err err
  | .ok issuer =>
    match issuer.Certificate with
    | [] => .panicked
    | der :: _ =>
      match lib.ParseCertificate der with
      | .error err => .err err
      | .ok x509Cert =>
        match issuer.PrivateKey with
        | .other _ => .panicked
        | .rsa issuerKey =>
          .ok (.adhoc
            { Generator :=
                { IssuerCertificate := x509Cert
                  IssuerKey := issuerKey
                  ServerKey := serverKey } })

/-- The function `certificateProvider`, returning the chain (`cert.AggregateProvider`, a
slice of providers) or an error. The type assertion on the default certificate's private
key is a run-time panic when the key is not an RSA key. -/
def certificateProvider (deps : AcmeDeps ServerName Matcher Err)
    (lib : CryptoLib Err X509 RSAKey OtherKey) (config : Config)
    (defaultCertificate : TLSCertificate X509 RSAKey OtherKey) :
    Outcome Err (List (Provider Err X509 RSAKey)) :=
  let providers : List (Provider Err X509 RSAKey) :=
    [fileCertificateProvider Err X509 RSAKey config]
  match acmeCertificateProvider X509 RSAKey deps config with
  | (acme, ok, err) =>
    match err with
    | some err => .err err
    | none =>
      let providers := if ok then providers ++ [acme] else providers
      match defaultCertificate.PrivateKey with
      | .other _ => .panicked
      | .rsa serverKey =>
        match adhocCertificateProvider lib config serverKey with
        | .err err => .err err
        | .panicked => .panicked
        | .ok adhoc => .ok (providers ++ [adhoc])

end Providers

/-- Which kind of provider a `cert.Provider` value is. -/
inductive ProviderKind where
  | nil | file | acme | adhoc
deriving DecidableEq, Repr

/-- The kind of a provider value. -/
def Provider.kind {Err X509 RSAKey : Type} : Provider Err X509 RSAKey → ProviderKind
  | .nil => .nil
  | .file _ => .file
  | .acme _ => .acme
  | .adhoc _ => .adhoc

/-! ## `src/cmd/honeycomb/main.go`: the root-CA pool -/

/-- The standard-library calls of `rootCAPool`: `x509.NewCertPool`,
`CertPool.AppendCertsFromPEM` (its boolean result is discarded by the caller),
`CertPool.Subjects`, `ioutil.ReadFile` and `os.IsNotExist`. -/
structure PoolLib (Pool Err : Type) where
  NewCertPool : Pool
  AppendCertsFromPEM : Pool → Bytes → Pool
  Subjects : Pool → List Bytes
  ReadFile : String → Except Err Bytes
  IsNotExist : Err → Bool

/-- A line `rootCAPool` writes with `logger.Printf`: the number of certificates loaded
from the bundle at `filename`. -/
structure LoadedLine where
  loaded : Int
  filename : String
deriving DecidableEq, Repr

/-- How a run of `rootCAPool` ends, with the lines logged on the way: it returns the pool,
or `logger.Fatalln(err)` ends the process. -/
inductive PoolRun (Pool Err : Type) where
  | returned (pool : Pool) (log : List LoadedLine)
  | fatal (err : Err) (log : List LoadedLine)

section RootCA
variable {Pool Err : Type}

/-- The loop of `rootCAPool` over the remaining bundle paths, from the current `pool`,
`count` and log. -/
def rootCAPoolLoop (lib : PoolLib Pool Err) :
    List String → Pool → Int → List LoadedLine → PoolRun Pool Err
  | [], pool, _, log => .returned pool log
  | filename :: rest, pool, count, log =>
    match lib.ReadFile filename with
    | .ok buf =>
      let pool := lib.AppendCertsFromPEM pool buf
      let c : Int := (lib.Subjects pool).length
      rootCAPoolLoop lib rest pool c (log ++ [{ loaded := c - count, filename := filename }])
    | .error err =>
      if !lib.IsNotExist err then .fatal err log
      else rootCAPoolLoop lib rest pool count log

/-- The function `rootCAPool`. -/
def rootCAPool (lib : PoolLib Pool Err) (config : Config) : PoolRun Pool Err :=
  let pool := lib.NewCertPool
  let count : Int := (lib.Subjects pool).length
  rootCAPoolLoop lib config.Certificates.CABundles pool count []

/-- The bundles among `paths` that `ioutil.ReadFile` reads successfully, in order. -/
def readableBundles (lib : PoolLib Pool Err) (paths : List String) : List Bytes :=
  paths.filterMap fun filename =>
    match lib.ReadFile filename with
    | .ok buf => some buf
    | .error _ => none

/-- A path is tolerated when reading it succeeds or fails with a does-not-exist error. -/
def tolerated (lib : PoolLib Pool Err) (filename : String) : Bool :=
  match lib.ReadFile filename with
  | .ok _ => true
  | .error err => lib.IsNotExist err

end RootCA

/-! ## Sample library instances

Concrete instances of the library parameters, on which the definitions above are evaluated. -/

/-- The type `name.ServerName`, with the two fields `name/server_name_test.go` compares. -/
structure ServerName where
  Unicode : String
  Punycode : String
deriving DecidableEq, Repr

/-- A sample server-name parser: a host is accepted when it is not empty and made of
ASCII letters, digits, `.` and `-` only, and its letters are put in lower case. -/
def sampleTryParse (host : String) : Except String ServerName :=
  if host ≠ "" ∧ host.toList.all (fun c => c.isAlphanum || c = '.' || c = '-') then
    .ok { Unicode := String.mk (host.toList.map Char.toLower)
          Punycode := String.mk (host.toList.map Char.toLower) }
  else .error "invalid server name"

/-- A sample of the `name` package for the ACME provider: server names are parsed by
`sampleTryParse`, a matcher is a literal name read by the same parser, and it scores 1 on
the name it was compiled from and 0 on every other name. -/
def sampleAcmeDeps : AcmeDeps ServerName ServerName String where
  TryParse := sampleTryParse
  NewMatcher := fun pattern =>
    match sampleTryParse pattern with
    | .ok sn => .ok sn
    | .error _ => .error "invalid pattern"
  Match := fun m sn => if m = sn then 1 else 0
  errorsNew := fun msg => msg

/-- A sample of the library under `rootCAPool`: a pool is the list of bundles appended to
it, each bundle counting as one certificate; `/etc/ca/a.pem` and `/etc/ca/b.pem` are
readable, `/etc/ca/locked.pem` cannot be read, and every other path does not exist. -/
def samplePoolLib : PoolLib (List Bytes) String where
  NewCertPool := []
  AppendCertsFromPEM := fun pool buf => pool ++ [buf]
  Subjects := fun pool => pool
  ReadFile := fun filename =>
    if filename = "/etc/ca/a.pem" then .ok [1]
    else if filename = "/etc/ca/b.pem" then .ok [2]
    else if filename = "/etc/ca/locked.pem" then .error "permission denied"
    else .error "no such file or directory"
  IsNotExist := fun err => err = "no such file or directory"

/-- A sample of the library under `adhocCertificateProvider`: certificates and keys are
numbers, the issuer pair under `/certs` loads and parses. -/
def sampleCryptoLib : CryptoLib String Nat Nat Nat where
  pathJoin := fun dir file => dir ++ "/" ++ file
  LoadX509KeyPair := fun certFile keyFile =>
    if certFile = "/certs/issuer.crt" ∧ keyFile = "/certs/issuer.key" then
      .ok { Certificate := [[48, 130]], PrivateKey := .rsa 7, Leaf := none }
    else .error "open: no such file or directory"
  ParseCertificate := fun der => if der = [48, 130] then .ok 11 else .error "x509: malformed"

/-- A sample configuration: an ACME account email and no ACME domain. -/
def sampleConfig : Config where
  Port := "8443"
  InsecurePort := "8080"
  ProxyProtocol := false
  Certificates :=
    { BasePath := "/certs"
      ServerCertificate := "server.crt"
      ServerKey := "server.key"
      IssuerCertificate := "issuer.crt"
      IssuerKey := "issuer.key"
      CABundles := ["/etc/ca/a.pem", "/etc/ca/missing.pem", "/etc/ca/b.pem"]
      ACME := { Email := "ops@example.org", Domains := [], CachePath := "" } }

/-! ## Theorems -/

theorem len_pos_iff (s : String) : 0 < len s ↔ s ≠ "" := by
  obtain ⟨l⟩ := s
  cases l with
  | nil => simp [len, String.utf8ByteSize, String.utf8ByteSize.go]
  | cons c cs =>
    have hc := Char.utf8Size_pos c
    have hne : (String.mk (c :: cs)) ≠ "" := by
      intro h
      have := congrArg String.data h
      simp at this
    simp only [len, String.utf8ByteSize, String.utf8ByteSize.go, ne_eq, hne, not_false_eq_true,
      iff_true]
    omega

/-- C1: `GetScheme` returns "https" for a TLS endpoint and a plain request, "wss" for
a TLS endpoint and a WebSocket request, "http" and "ws" for a non-TLS endpoint, and the
result is the same whatever `Description` and `Address` are. -/
theorem getScheme_table (description address : String) (isTLS isWebSocket : Bool) :
    Endpoint.GetScheme ⟨description, address, true⟩ false = "https" ∧
    Endpoint.GetScheme ⟨description, address, true⟩ true = "wss" ∧
    Endpoint.GetScheme ⟨description, address, false⟩ false = "http" ∧
    Endpoint.GetScheme ⟨description, address, false⟩ true = "ws" ∧
    (∀ description2 address2 : String,
      Endpoint.GetScheme ⟨description2, address2, isTLS⟩ isWebSocket =
        Endpoint.GetScheme ⟨description, address, isTLS⟩ isWebSocket) := by
  refine ⟨rfl, rfl, rfl, rfl, ?_⟩
  intro _ _
  rfl

/-- C2: `redirectHandler` answers every request with status 307 and the target
"https://" + host + path, followed by "?" + raw query exactly when the raw query is not
empty. -/
theorem redirectHandler_target (req : Request) :
    (redirectHandler req).code = 307 ∧
    (redirectHandler req).url =
      (if req.RawQuery = "" then "https://" ++ req.Host ++ req.Path
       else "https://" ++ req.Host ++ req.Path ++ "?" ++ req.RawQuery) := by
  refine ⟨rfl, ?_⟩
  by_cases h : req.RawQuery = ""
  · have hl : ¬ (len "" > 0) := by
      rw [gt_iff_lt, len_pos_iff]; simp
    simp [redirectHandler, h, hl]
  · have hl : len req.RawQuery > 0 := (len_pos_iff _).2 h
    simp [redirectHandler, h, hl, String.append_assoc]

/-- C3 (as stated, refuted): on a configuration whose minimum version was TLS 1.2 before
the call, `prepareTLSConfig` leaves a minimum version that is not TLS 1.2 but lower. -/
theorem prepareTLSConfig_minVersion_not_tls12 :
    (prepareTLSConfig ({ MinVersion := VersionTLS12 } : TLSConfig Unit Unit Unit)).MinVersion
        ≠ VersionTLS12 ∧
    (prepareTLSConfig ({ MinVersion := VersionTLS12 } : TLSConfig Unit Unit Unit)).MinVersion
        < VersionTLS12 := by
  decide

/-- C3 (amended): for every TLS configuration, the minimum protocol version after
`prepareTLSConfig` is TLS 1.0, below TLS 1.1 and TLS 1.2, and so is the minimum version of
the configuration `main` serves with. -/
theorem prepareTLSConfig_minVersion {Pool Cert Getter : Type}
    (config : TLSConfig Pool Cert Getter) (provider : Getter) (defaultCertificate : Cert)
    (rootCACertPool : Pool) :
    (prepareTLSConfig config).MinVersion = VersionTLS10 ∧
    (serverTLSConfig provider defaultCertificate rootCACertPool).MinVersion = VersionTLS10 ∧
    VersionTLS10 < VersionTLS11 ∧ VersionTLS11 < VersionTLS12 := by
  refine ⟨rfl, rfl, ?_, ?_⟩ <;> decide

/-- C4 (as stated, refuted): on the empty configuration, and on one that already held
"h2" and "http/1.1", the list after `prepareTLSConfig` is not ["h2", "http/1.1"]. -/
theorem prepareTLSConfig_nextProtos_not_h2_http11 :
    (prepareTLSConfig ({ } : TLSConfig Unit Unit Unit)).NextProtos ≠ ["h2", "http/1.1"] ∧
    (prepareTLSConfig
      ({ NextProtos := ["h2", "http/1.1"] } : TLSConfig Unit Unit Unit)).NextProtos
        ≠ ["h2", "http/1.1"] := by
  decide

/-- C4 (amended): for every TLS configuration, the ALPN protocol list after
`prepareTLSConfig` is exactly ["h2"], whatever the list held before the call, and so is
the list of the configuration `main` builds. -/
theorem prepareTLSConfig_nextProtos {Pool Cert Getter : Type}
    (config : TLSConfig Pool Cert Getter) (provider : Getter) (defaultCertificate : Cert)
    (rootCACertPool : Pool) :
    (prepareTLSConfig config).NextProtos = ["h2"] ∧
    (serverTLSConfig provider defaultCertificate rootCACertPool).NextProtos = ["h2"] :=
  ⟨rfl, rfl⟩

/-- C10: in the handler `main` constructs, the insecure HTTP proxy is the only forwarding
path whose TLS client configuration skips verification; the two HTTP transports have the
same root-CA pool and the insecure one is the secure one with `InsecureSkipVerify` set;
both WebSocket dialers hold the secure transport's TLS client configuration. -/
theorem proxyHandler_verification {Loc ProxyFn DialFn Pool Cert Getter : Type}
    (DefaultTransport : Transport ProxyFn DialFn Pool Cert Getter) (cachingLocator : Loc)
    (rootCACertPool : Pool) :
    let h := proxyHandler DefaultTransport cachingLocator rootCACertPool
    skipsVerification h.InsecureHTTPProxy.Transport.TLSClientConfig = true ∧
    skipsVerification h.SecureHTTPProxy.Transport.TLSClientConfig = false ∧
    skipsVerification h.SecureWebSocketProxy.Dialer.TLSConfig = false ∧
    skipsVerification h.InsecureWebSocketProxy.Dialer.TLSConfig = false ∧
    h.SecureHTTPProxy.Transport.TLSClientConfig = some { RootCAs := some rootCACertPool } ∧
    h.InsecureHTTPProxy.Transport.TLSClientConfig =
      some { RootCAs := some rootCACertPool, InsecureSkipVerify := true } ∧
    h.InsecureHTTPProxy.Transport =
      { h.SecureHTTPProxy.Transport with
        TLSClientConfig :=
          some { RootCAs := some rootCACertPool, InsecureSkipVerify := true } } ∧
    h.SecureWebSocketProxy.Dialer.TLSConfig = h.SecureHTTPProxy.Transport.TLSClientConfig ∧
    h.InsecureWebSocketProxy.Dialer.TLSConfig = h.SecureHTTPProxy.Transport.TLSClientConfig ∧
    h.InsecureWebSocketProxy = h.SecureWebSocketProxy := by
  intro h
  exact ⟨rfl, rfl, rfl, rfl, rfl, rfl, rfl, rfl, rfl, rfl⟩

section ProviderFacts
variable {ServerName Matcher Err X509 RSAKey OtherKey : Type}

theorem acmeMatchers_ok_iff (deps : AcmeDeps ServerName Matcher Err) (domains : List String)
    (acc : List Matcher) :
    (∃ ms, acmeMatchers deps domains acc = .ok ms) ↔
      ∀ d ∈ domains, ∃ m, deps.NewMatcher d = .ok m := by
  induction domains generalizing acc with
  | nil => simp [acmeMatchers]
  | cons d rest ih =>
    cases hd : deps.NewMatcher d with
    | error err => simp [acmeMatchers, hd]
    | ok m => simp [acmeMatchers, hd, ih]

theorem acmeMatchers_length (deps : AcmeDeps ServerName Matcher Err) (domains : List String)
    (acc ms : List Matcher) (h : acmeMatchers deps domains acc = .ok ms) :
    ms.length = acc.length + domains.length := by
  induction domains generalizing acc with
  | nil =>
    simp only [acmeMatchers, Except.ok.injEq] at h
    simp [← h]
  | cons d rest ih =>
    cases hd : deps.NewMatcher d with
    | error err => simp [acmeMatchers, hd] at h
    | ok m =>
      simp only [acmeMatchers, hd] at h
      have := ih _ h
      simp only [List.length_append, List.length_singleton, List.length_cons,
        List.length_nil] at this ⊢
      omega

theorem hostPolicyLoop_iff (deps : AcmeDeps ServerName Matcher Err) (sn : ServerName)
    (matchers : List Matcher) :
    hostPolicyLoop deps sn matchers = true ↔ ∃ m ∈ matchers, deps.Match m sn > 0 := by
  induction matchers with
  | nil => simp [hostPolicyLoop]
  | cons m rest ih =>
    by_cases hm : deps.Match m sn > 0
    · simp [hostPolicyLoop, hm]
    · simp [hostPolicyLoop, hm, ih]

theorem acmeCertificateProvider_cases (X509 RSAKey : Type)
    (deps : AcmeDeps ServerName Matcher Err) (config : Config) :
    (config.Certificates.ACME.Email = "" ∧
      acmeCertificateProvider X509 RSAKey deps config
        = (.nil, false, none)) ∨
    (config.Certificates.ACME.Email ≠ "" ∧
      ∃ err, acmeMatchers deps config.Certificates.ACME.Domains [] = .error err ∧
        acmeCertificateProvider X509 RSAKey deps config
          = (.nil, false, some err)) ∨
    (config.Certificates.ACME.Email ≠ "" ∧
      ∃ matchers m, acmeMatchers deps config.Certificates.ACME.Domains [] = .ok matchers ∧
        m.HostPolicy = hostPolicy deps matchers ∧
        acmeCertificateProvider X509 RSAKey deps config
          = (.acme m, true, none)) := by
  by_cases he : config.Certificates.ACME.Email = ""
  · left
    exact ⟨he, by simp [acmeCertificateProvider, he]⟩
  · right
    cases hm : acmeMatchers deps config.Certificates.ACME.Domains [] with
    | error err =>
      left
      exact ⟨he, err, rfl, by simp [acmeCertificateProvider, he, hm]⟩
    | ok matchers =>
      right
      refine ⟨he, matchers, ?_⟩
      by_cases hc : config.Certificates.ACME.CachePath = ""
      · exact ⟨{ Prompt := .AcceptTOS, HostPolicy := hostPolicy deps matchers, Cache := none },
          rfl, rfl, by simp [acmeCertificateProvider, he, hm, hc]⟩
      · exact ⟨⟨.AcceptTOS, hostPolicy deps matchers,
            some config.Certificates.ACME.CachePath⟩, rfl, rfl,
          by simp [acmeCertificateProvider, he, hm, hc]⟩

theorem acmeCertificateProvider_kind (X509 RSAKey : Type)
    (deps : AcmeDeps ServerName Matcher Err) (config : Config)
    (h : (acmeCertificateProvider X509 RSAKey deps config).2.1 = true) :
    (acmeCertificateProvider X509 RSAKey deps config).1.kind = .acme := by
  rcases acmeCertificateProvider_cases X509 RSAKey deps config with
    ⟨_, hr⟩ | ⟨_, err, _, hr⟩ | ⟨_, ms, m, _, _, hr⟩
  · rw [hr] at h; cases h
  · rw [hr] at h; cases h
  · rw [hr]; rfl

theorem adhocCertificateProvider_kind (lib : CryptoLib Err X509 RSAKey OtherKey)
    (config : Config) (serverKey : RSAKey) (adhoc : Provider Err X509 RSAKey)
    (h : adhocCertificateProvider lib config serverKey = .ok adhoc) :
    adhoc.kind = .adhoc := by
  unfold adhocCertificateProvider at h
  split at h
  · cases h
  · split at h
    · cases h
    · split at h
      · cases h
      · split at h
        · cases h
        · cases h; rfl

theorem certificateProvider_ok_iff (deps : AcmeDeps ServerName Matcher Err)
    (lib : CryptoLib Err X509 RSAKey OtherKey) (config : Config)
    (defaultCertificate : TLSCertificate X509 RSAKey OtherKey)
    (chain : List (Provider Err X509 RSAKey)) :
    certificateProvider deps lib config defaultCertificate = .ok chain ↔
      ∃ serverKey adhoc,
        (acmeCertificateProvider X509 RSAKey deps config).2.2 = none ∧
        defaultCertificate.PrivateKey = .rsa serverKey ∧
        adhocCertificateProvider lib config serverKey = .ok adhoc ∧
        chain =
          if (acmeCertificateProvider X509 RSAKey deps config).2.1 then
            [fileCertificateProvider Err X509 RSAKey config,
              (acmeCertificateProvider X509 RSAKey deps config).1, adhoc]
          else [fileCertificateProvider Err X509 RSAKey config, adhoc] := by
  unfold certificateProvider
  obtain ⟨acme, ok, err⟩ := acmeCertificateProvider X509 RSAKey deps config
  cases err with
  | some e => simp
  | none =>
    cases hk : defaultCertificate.PrivateKey with
    | other k => simp
    | rsa serverKey =>
      cases ha : adhocCertificateProvider lib config serverKey with
      | err e => simp [ha]
      | panicked => simp [ha]
      | ok adhoc =>
        cases ok <;> simp [ha, eq_comm]

theorem fileCertificateProvider_kind (Err X509 RSAKey : Type) (config : Config) :
    (fileCertificateProvider Err X509 RSAKey config).kind
      = .file := rfl

theorem certificateProvider_acme_err (deps : AcmeDeps ServerName Matcher Err)
    (lib : CryptoLib Err X509 RSAKey OtherKey) (config : Config)
    (defaultCertificate : TLSCertificate X509 RSAKey OtherKey) (err : Err)
    (h : (acmeCertificateProvider X509 RSAKey deps config).2.2
      = some err) :
    certificateProvider deps lib config defaultCertificate = .err err := by
  unfold certificateProvider
  generalize acmeCertificateProvider X509 RSAKey deps config = r at h
  obtain ⟨a, ok, e⟩ := r
  simp only at h
  subst h
  rfl

theorem certificateProvider_adhoc_err (deps : AcmeDeps ServerName Matcher Err)
    (lib : CryptoLib Err X509 RSAKey OtherKey) (config : Config)
    (defaultCertificate : TLSCertificate X509 RSAKey OtherKey) (serverKey : RSAKey) (err : Err)
    (h : (acmeCertificateProvider X509 RSAKey deps config).2.2 = none)
    (hkey : defaultCertificate.PrivateKey = .rsa serverKey)
    (hadhoc : adhocCertificateProvider lib config serverKey = .err err) :
    certificateProvider deps lib config defaultCertificate = .err err := by
  unfold certificateProvider
  generalize acmeCertificateProvider X509 RSAKey deps config = r at h
  obtain ⟨a, ok, e⟩ := r
  simp only at h
  subst h
  simp [hkey, hadhoc]

end ProviderFacts

section ProviderClaims
variable {ServerName Matcher Err X509 RSAKey OtherKey : Type}

/-- C5 (as stated, refuted): with an account email and an empty ACME domain list, so that
no matcher is compiled, `acmeCertificateProvider` returns ok = true with no error. -/
theorem acmeCertificateProvider_active_without_domains :
    sampleConfig.Certificates.ACME.Email ≠ "" ∧
    sampleConfig.Certificates.ACME.Domains = [] ∧
    acmeMatchers sampleAcmeDeps sampleConfig.Certificates.ACME.Domains [] = .ok [] ∧
    (acmeCertificateProvider Nat Nat sampleAcmeDeps sampleConfig).2
      = (true, none) := by
  refine ⟨by decide, rfl, rfl, rfl⟩

/-- C5 (amended): `acmeCertificateProvider` returns ok = true with no error exactly when
the ACME email is non-empty and every configured ACME domain compiles to a matcher (an
empty domain list included), and its provider is then the ACME manager; with an empty
email it returns ok = false, no error and a nil provider, and no ACME provider is in the
chain `certificateProvider` returns. -/
theorem acmeCertificateProvider_active (deps : AcmeDeps ServerName Matcher Err)
    (lib : CryptoLib Err X509 RSAKey OtherKey) (config : Config)
    (defaultCertificate : TLSCertificate X509 RSAKey OtherKey) :
    let r := acmeCertificateProvider X509 RSAKey deps config
    ((r.2.1 = true ∧ r.2.2 = none) ↔
      (config.Certificates.ACME.Email ≠ "" ∧
        ∀ d ∈ config.Certificates.ACME.Domains, ∃ m, deps.NewMatcher d = .ok m)) ∧
    (r.2.1 = true → r.1.kind = .acme) ∧
    (config.Certificates.ACME.Email = "" → r.2.1 = false ∧ r.2.2 = none ∧ r.1.kind = .nil) ∧
    (config.Certificates.ACME.Email = "" →
      ∀ chain, certificateProvider deps lib config defaultCertificate = .ok chain →
        ∀ p ∈ chain, p.kind ≠ .acme) := by
  intro r
  have hcases := acmeCertificateProvider_cases X509 RSAKey deps config
  have hiff := acmeMatchers_ok_iff deps config.Certificates.ACME.Domains []
  refine ⟨?_, ?_, ?_, ?_⟩
  · rcases hcases with ⟨he, hr⟩ | ⟨he, err, hm, hr⟩ | ⟨he, ms, m, hm, _, hr⟩
    · simp [r, hr, he]
    · have hno : ¬ ∀ d ∈ config.Certificates.ACME.Domains,
          ∃ m, deps.NewMatcher d = .ok m := by
        rw [← hiff]
        rintro ⟨ms, hms⟩
        rw [hm] at hms
        cases hms
      simp [r, hr, hno]
    · have hall := hiff.1 ⟨ms, hm⟩
      simp only [r, hr, and_self, ne_eq, he, not_false_eq_true, true_and, true_iff]
      exact hall
  · rcases hcases with ⟨_, hr⟩ | ⟨_, err, _, hr⟩ | ⟨_, ms, m, _, _, hr⟩ <;>
      simp [r, hr, Provider.kind]
  · intro he
    rcases hcases with ⟨_, hr⟩ | ⟨he2, _⟩ | ⟨he2, _⟩
    · simp [r, hr, Provider.kind]
    · exact absurd he he2
    · exact absurd he he2
  · intro he chain hchain p hp
    rcases hcases with ⟨_, hr⟩ | ⟨he2, _⟩ | ⟨he2, _⟩
    · obtain ⟨serverKey, adhoc, _, _, hadhoc, hc⟩ :=
        (certificateProvider_ok_iff deps lib config defaultCertificate chain).1 hchain
      have hk := adhocCertificateProvider_kind lib config serverKey adhoc hadhoc
      rw [hr] at hc
      simp only [Bool.false_eq_true, if_false] at hc
      subst hc
      simp only [List.mem_cons, List.mem_singleton, List.not_mem_nil, or_false] at hp
      rcases hp with rfl | rfl
      · simp [fileCertificateProvider, Provider.kind]
      · simp [hk]
    · exact absurd he he2
    · exact absurd he he2

/-- C5 (amended), on the sample configuration: an email and no domain give an active
provider. -/
theorem acmeCertificateProvider_active_witness :
    (acmeCertificateProvider Nat Nat sampleAcmeDeps sampleConfig).2.1
        = true ∧
    (acmeCertificateProvider Nat Nat sampleAcmeDeps sampleConfig).2.2
        = none :=
  (acmeCertificateProvider_active
    sampleAcmeDeps sampleCryptoLib sampleConfig
    { Certificate := [], PrivateKey := .rsa 3, Leaf := none }).1.2
    ⟨by decide, by intro d hd; cases hd⟩

/-- C6: the host policy built by `acmeCertificateProvider` accepts a host exactly when
`name.TryParse` succeeds on it and some matcher of the list scores the parsed name above 0;
when no matcher scores above 0, the empty list included, the host is refused; a host that
fails to parse is refused with the parse error whatever the matchers are; and the policy
of the manager `acmeCertificateProvider` returns is this policy over the matchers compiled
from the configured domains. -/
theorem hostPolicy_accepts_iff (X509 RSAKey : Type) (deps : AcmeDeps ServerName Matcher Err)
    (matchers : List Matcher) (host : String) :
    (hostPolicy deps matchers host = none ↔
      ∃ sn, deps.TryParse host = .ok sn ∧ ∃ m ∈ matchers, deps.Match m sn > 0) ∧
    ((∀ sn, deps.TryParse host = .ok sn → ∀ m ∈ matchers, ¬ deps.Match m sn > 0) →
      hostPolicy deps matchers host ≠ none) ∧
    hostPolicy deps [] host ≠ none ∧
    (∀ err, deps.TryParse host = .error err →
      ∀ others : List Matcher, hostPolicy deps others host = some err) ∧
    (∀ (config : Config) (m : Manager Err),
      (acmeCertificateProvider X509 RSAKey deps config).1 = .acme m →
      ∃ compiled, acmeMatchers deps config.Certificates.ACME.Domains [] = .ok compiled ∧
        m.HostPolicy = hostPolicy deps compiled) := by
  have hiff : ∀ ms : List Matcher, hostPolicy deps ms host = none ↔
      ∃ sn, deps.TryParse host = .ok sn ∧ ∃ m ∈ ms, deps.Match m sn > 0 := by
    intro ms
    unfold hostPolicy
    cases hp : deps.TryParse host with
    | error err => simp
    | ok sn =>
      by_cases hl : hostPolicyLoop deps sn ms = true
      · simp only [hl, if_true, Except.ok.injEq, exists_eq_left', true_iff]
        exact (hostPolicyLoop_iff deps sn ms).1 hl
      · have hno := mt (hostPolicyLoop_iff deps sn ms).2 hl
        simp only [hl, Bool.false_eq_true, if_false, Except.ok.injEq, exists_eq_left',
          false_iff]
        simpa using hno
  refine ⟨hiff matchers, ?_, ?_, ?_, ?_⟩
  · intro hnone hacc
    obtain ⟨sn, hsn, m, hm, hpos⟩ := (hiff matchers).1 hacc
    exact hnone sn hsn m hm hpos
  · intro hacc
    obtain ⟨sn, _, m, hm, _⟩ := (hiff []).1 hacc
    cases hm
  · intro err herr others
    simp [hostPolicy, herr]
  · intro config m hm
    rcases acmeCertificateProvider_cases X509 RSAKey deps config with
      ⟨_, hr⟩ | ⟨_, err, _, hr⟩ | ⟨_, ms, m2, hms, hpol, hr⟩
    · rw [hr] at hm; cases hm
    · rw [hr] at hm; cases hm
    · rw [hr] at hm
      cases hm
      exact ⟨ms, hms, hpol⟩

/-- C6, on the sample name package: with the allow-list compiled from `api.example.org`,
the host `API.example.org` is accepted. -/
theorem hostPolicy_accepts_iff_witness :
    hostPolicy sampleAcmeDeps [⟨"api.example.org", "api.example.org"⟩] "API.example.org"
      = none :=
  (hostPolicy_accepts_iff Nat Nat sampleAcmeDeps
    [⟨"api.example.org", "api.example.org"⟩] "API.example.org").1.2
    ⟨⟨"api.example.org", "api.example.org"⟩, rfl, ⟨"api.example.org", "api.example.org"⟩,
      List.mem_singleton.2 rfl, by decide⟩

/-- C8: when `certificateProvider` succeeds its chain is [file, adhoc] if
`acmeCertificateProvider` reported ok = false and [file, acme, adhoc] if it reported
ok = true, with the file provider first, the ad-hoc provider last and the provider
`acmeCertificateProvider` returned between them; it does succeed, with that chain, when
the ACME step gives no error, the default key is an RSA key and the ad-hoc provider is
built; and an error of the ACME step or of the ad-hoc step is returned instead of a
chain. -/
theorem certificateProvider_chain_order (deps : AcmeDeps ServerName Matcher Err)
    (lib : CryptoLib Err X509 RSAKey OtherKey) (config : Config)
    (defaultCertificate : TLSCertificate X509 RSAKey OtherKey) :
    let acme := acmeCertificateProvider X509 RSAKey deps config
    (∀ chain, certificateProvider deps lib config defaultCertificate = .ok chain →
      chain.head? = some (fileCertificateProvider Err X509 RSAKey config) ∧
      (chain.getLast?.map Provider.kind) = some .adhoc ∧
      ((acme.2.1 = false ∧ chain.map Provider.kind = [.file, .adhoc]) ∨
        (acme.2.1 = true ∧ chain.map Provider.kind = [.file, .acme, .adhoc] ∧
          chain.get? 1 = some acme.1))) ∧
    (∀ serverKey adhoc, acme.2.2 = none → defaultCertificate.PrivateKey = .rsa serverKey →
      adhocCertificateProvider lib config serverKey = .ok adhoc →
      certificateProvider deps lib config defaultCertificate =
        .ok (if acme.2.1 then [fileCertificateProvider Err X509 RSAKey config, acme.1, adhoc]
             else [fileCertificateProvider Err X509 RSAKey config, adhoc])) ∧
    (∀ err, acme.2.2 = some err →
      certificateProvider deps lib config defaultCertificate = .err err) ∧
    (∀ serverKey err, acme.2.2 = none → defaultCertificate.PrivateKey = .rsa serverKey →
      adhocCertificateProvider lib config serverKey = .err err →
      certificateProvider deps lib config defaultCertificate = .err err) := by
  dsimp only
  refine ⟨?_, ?_, ?_, ?_⟩
  · intro chain hchain
    obtain ⟨serverKey, adhoc, _, _, hadhoc, hc⟩ :=
      (certificateProvider_ok_iff deps lib config defaultCertificate chain).1 hchain
    have hk := adhocCertificateProvider_kind lib config serverKey adhoc hadhoc
    have hf := fileCertificateProvider_kind Err X509 RSAKey config
    have hacme := acmeCertificateProvider_kind X509 RSAKey deps config
    by_cases hok : (acmeCertificateProvider X509 RSAKey deps config).2.1
        = true
    · rw [if_pos hok] at hc
      subst hc
      refine ⟨rfl, ?_, Or.inr ⟨hok, ?_, rfl⟩⟩
      · simp only [List.getLast?, List.getLast, Option.map_some', hk]
      · simp only [List.map_cons, List.map_nil, hk, hf, hacme hok]
    · rw [if_neg hok] at hc
      subst hc
      refine ⟨rfl, ?_, Or.inl ⟨by simpa using hok, ?_⟩⟩
      · simp only [List.getLast?, List.getLast, Option.map_some', hk]
      · simp only [List.map_cons, List.map_nil, hk, hf]
  · intro serverKey adhoc herr hkey hadhoc
    exact (certificateProvider_ok_iff deps lib config defaultCertificate _).2
      ⟨serverKey, adhoc, herr, hkey, hadhoc, rfl⟩
  · intro err herr
    exact certificateProvider_acme_err deps lib config defaultCertificate err herr
  · intro serverKey err herr hkey hadhoc
    exact certificateProvider_adhoc_err deps lib config defaultCertificate serverKey err
      herr hkey hadhoc

/-- C8, on the sample configuration (an ACME email, no domain, an RSA default key and a
loadable issuer pair): the chain is the file provider, the ACME provider and the ad-hoc
provider. -/
theorem certificateProvider_chain_order_witness :
    ∃ chain,
      certificateProvider sampleAcmeDeps sampleCryptoLib sampleConfig
        { Certificate := [], PrivateKey := .rsa 3, Leaf := none } = .ok chain ∧
      chain.map Provider.kind = [.file, .acme, .adhoc] :=
  ⟨_, rfl,
    ((certificateProvider_chain_order sampleAcmeDeps sampleCryptoLib sampleConfig
      { Certificate := [], PrivateKey := .rsa 3, Leaf := none }).1 _ rfl).2.2.elim
      (fun h => absurd h.1 (by decide)) (fun h => h.2.1)⟩

end ProviderClaims

section RootCAFacts
variable {Pool Err : Type}

theorem rootCAPoolLoop_tolerated (lib : PoolLib Pool Err) (paths : List String)
    (h : ∀ f ∈ paths, tolerated lib f = true) (pool : Pool) (count : Int)
    (log : List LoadedLine) :
    ∃ log2, rootCAPoolLoop lib paths pool count log =
      .returned ((readableBundles lib paths).foldl lib.AppendCertsFromPEM pool) log2 := by
  induction paths generalizing pool count log with
  | nil => exact ⟨log, rfl⟩
  | cons f rest ih =>
    have hrest : ∀ g ∈ rest, tolerated lib g = true := fun g hg =>
      h g (List.mem_cons_of_mem _ hg)
    have hf := h f (List.mem_cons_self _ _)
    cases hr : lib.ReadFile f with
    | ok buf =>
      obtain ⟨log2, h2⟩ := ih hrest (lib.AppendCertsFromPEM pool buf)
        ((lib.Subjects (lib.AppendCertsFromPEM pool buf)).length)
        (log ++ [{ loaded := ((lib.Subjects (lib.AppendCertsFromPEM pool buf)).length : Int)
                    - count, filename := f }])
      refine ⟨log2, ?_⟩
      simp only [rootCAPoolLoop, hr, readableBundles, List.filterMap_cons, List.foldl_cons]
      exact h2
    | error err =>
      have hne : lib.IsNotExist err = true := by simpa [tolerated, hr] using hf
      obtain ⟨log2, h2⟩ := ih hrest pool count log
      refine ⟨log2, ?_⟩
      simp only [rootCAPoolLoop, hr, hne, readableBundles, List.filterMap_cons,
        Bool.not_true, Bool.false_eq_true, if_false]
      exact h2

theorem rootCAPoolLoop_fatal (lib : PoolLib Pool Err) (before : List String)
    (filename : String) (after : List String) (err : Err)
    (h : ∀ f ∈ before, tolerated lib f = true) (hread : lib.ReadFile filename = .error err)
    (hne : lib.IsNotExist err = false) (pool : Pool) (count : Int) (log : List LoadedLine) :
    ∃ log2, rootCAPoolLoop lib before pool count log =
        .returned ((readableBundles lib before).foldl lib.AppendCertsFromPEM pool) log2 ∧
      rootCAPoolLoop lib (before ++ filename :: after) pool count log = .fatal err log2 := by
  induction before generalizing pool count log with
  | nil =>
    refine ⟨log, rfl, ?_⟩
    simp [rootCAPoolLoop, hread, hne]
  | cons f rest ih =>
    have hrest : ∀ g ∈ rest, tolerated lib g = true := fun g hg =>
      h g (List.mem_cons_of_mem _ hg)
    have hf := h f (List.mem_cons_self _ _)
    cases hr : lib.ReadFile f with
    | ok buf =>
      obtain ⟨log2, h1, h2⟩ := ih hrest (lib.AppendCertsFromPEM pool buf)
        ((lib.Subjects (lib.AppendCertsFromPEM pool buf)).length)
        (log ++ [{ loaded := ((lib.Subjects (lib.AppendCertsFromPEM pool buf)).length : Int)
                    - count, filename := f }])
      refine ⟨log2, ?_, ?_⟩
      · simp only [rootCAPoolLoop, hr, readableBundles, List.filterMap_cons, List.foldl_cons]
        exact h1
      · simp only [List.cons_append, rootCAPoolLoop, hr]
        exact h2
    | error e =>
      have hex : lib.IsNotExist e = true := by simpa [tolerated, hr] using hf
      obtain ⟨log2, h1, h2⟩ := ih hrest pool count log
      refine ⟨log2, ?_, ?_⟩
      · simp only [rootCAPoolLoop, hr, hex, readableBundles, List.filterMap_cons,
          Bool.not_true, Bool.false_eq_true, if_false]
        exact h1
      · simp only [List.cons_append, rootCAPoolLoop, hr, hex, Bool.not_true,
          Bool.false_eq_true, if_false]
        exact h2

theorem first_not_tolerated (lib : PoolLib Pool Err) (paths : List String)
    (h : ∃ f ∈ paths, tolerated lib f = false) :
    ∃ before filename after, paths = before ++ filename :: after ∧
      (∀ g ∈ before, tolerated lib g = true) ∧ tolerated lib filename = false := by
  induction paths with
  | nil =>
    obtain ⟨f, hf, _⟩ := h
    cases hf
  | cons p rest ih =>
    by_cases hp : tolerated lib p = true
    · obtain ⟨f, hf, hnot⟩ := h
      have hmem : f ∈ rest := by
        rcases List.mem_cons.1 hf with rfl | hmem
        · rw [hp] at hnot; cases hnot
        · exact hmem
      obtain ⟨before, filename, after, heq, hall, hbad⟩ := ih ⟨f, hmem, hnot⟩
      refine ⟨p :: before, filename, after, by rw [heq]; rfl, ?_, hbad⟩
      intro g hg
      rcases List.mem_cons.1 hg with rfl | hg2
      · exact hp
      · exact hall g hg2
    · exact ⟨[], p, rest, rfl, fun g hg => absurd hg (List.not_mem_nil g), by simpa using hp⟩

theorem not_tolerated_read (lib : PoolLib Pool Err) (filename : String)
    (h : tolerated lib filename = false) :
    ∃ err, lib.ReadFile filename = .error err ∧ lib.IsNotExist err = false := by
  unfold tolerated at h
  cases hr : lib.ReadFile filename with
  | ok buf => rw [hr] at h; cases h
  | error err => rw [hr] at h; exact ⟨err, rfl, h⟩

end RootCAFacts

section RootCAClaims
variable {Pool Err : Type}

/-- C7: with each bundle path modelled by the result of reading it, if every read succeeds
or reports that the file does not exist, `rootCAPool` returns the pool obtained by
appending the successfully read bundles in configured order to a new pool; if some read
fails with another error, `rootCAPool` ends fatally with the error of the first such path,
having logged exactly what the run over the paths before it logs, and returns no pool. -/
theorem rootCAPool_outcome (lib : PoolLib Pool Err) (config : Config) :
    ((∀ f ∈ config.Certificates.CABundles, tolerated lib f = true) →
      ∃ log, rootCAPool lib config =
        .returned
          ((readableBundles lib config.Certificates.CABundles).foldl lib.AppendCertsFromPEM
            lib.NewCertPool) log) ∧
    ((∃ f ∈ config.Certificates.CABundles, tolerated lib f = false) →
      ∃ before filename after err log,
        config.Certificates.CABundles = before ++ filename :: after ∧
        (∀ g ∈ before, tolerated lib g = true) ∧
        lib.ReadFile filename = .error err ∧ lib.IsNotExist err = false ∧
        rootCAPool lib
            { config with Certificates := { config.Certificates with CABundles := before } } =
          .returned
            ((readableBundles lib before).foldl lib.AppendCertsFromPEM lib.NewCertPool) log ∧
        rootCAPool lib config = .fatal err log ∧
        ∀ pool log2, rootCAPool lib config ≠ .returned pool log2) := by
  constructor
  · intro h
    exact rootCAPoolLoop_tolerated lib _ h _ _ _
  · intro h
    obtain ⟨before, filename, after, heq, hall, hbad⟩ := first_not_tolerated lib _ h
    obtain ⟨err, hread, hne⟩ := not_tolerated_read lib filename hbad
    obtain ⟨log, h1, h2⟩ := rootCAPoolLoop_fatal lib before filename after err hall hread hne
      lib.NewCertPool ((lib.Subjects lib.NewCertPool).length) []
    have hfatal : rootCAPool lib config = .fatal err log := by
      unfold rootCAPool
      rw [heq]
      exact h2
    refine ⟨before, filename, after, err, log, heq, hall, hread, hne, h1, hfatal, ?_⟩
    intro pool log2 hret
    rw [hfatal] at hret
    cases hret

/-- C7, on the sample library: the bundles `a.pem` and `b.pem` around a missing file load
into the pool in that order, and an unreadable bundle after `a.pem` ends the run fatally
with the line of `a.pem` logged. -/
theorem rootCAPool_outcome_witness :
    (∃ log, rootCAPool samplePoolLib sampleConfig = .returned [[1], [2]] log) ∧
    (∃ before filename after err log,
      ["/etc/ca/a.pem", "/etc/ca/locked.pem", "/etc/ca/b.pem"] = before ++ filename :: after ∧
      samplePoolLib.ReadFile filename = .error err ∧
      rootCAPool samplePoolLib
        { sampleConfig with Certificates :=
            { sampleConfig.Certificates with
              CABundles := ["/etc/ca/a.pem", "/etc/ca/locked.pem", "/etc/ca/b.pem"] } }
        = .fatal err log) :=
  ⟨(rootCAPool_outcome samplePoolLib sampleConfig).1 (by decide),
    let ⟨before, filename, after, err, log, h1, _, h3, _, _, h6, _⟩ :=
      (rootCAPool_outcome samplePoolLib
        { sampleConfig with Certificates :=
            { sampleConfig.Certificates with
              CABundles := ["/etc/ca/a.pem", "/etc/ca/locked.pem", "/etc/ca/b.pem"] } }).2
        ⟨"/etc/ca/locked.pem", by decide, by decide⟩
    ⟨before, filename, after, err, log, h1, h3, h6⟩⟩

end RootCAClaims

end Honeycomb
